import Mathlib

/-!
Verification development for the 3D visualization panel repository.

The repository consists of a columnar-data parser (parseNodesFromDataFrame,
parseTransactionData), a node geometry factory (getNodeSize, getNodeColor,
createNodeLabelHTML, formatNumber), a scene layout engine (grouping by
layerOrder, ring guides, angular placement) and a scene lifecycle manager
(mount / data update / unmount with recursive disposal).  Each of these is
embedded below as an executable Lean definition translated from the source,
and the numbered claims about them are settled as theorems.

Modelling conventions for the host language (JavaScript) primitives:
  - a JS number is `JsNum`: either NaN or a finite rational (the repository
    performs no operation producing infinities on the paths under study);
  - the builtin ToNumber / ToString / ToBoolean coercions are embedded as
    `toNumber`, `jsToString`, `toBool`; string-to-number conversion models
    the decimal fragment of the builtin (sign, digits, optional fraction,
    whitespace trimming, empty string to 0, anything else to NaN);
  - angles are recorded as fractions of a full turn: the source computes
    angle = index * (2*pi / count) and we record index / count.
-/

/-- A JavaScript number: NaN or a finite rational. -/
inductive JsNum where
  | nan : JsNum
  | fin (q : ℚ) : JsNum
deriving DecidableEq, Repr

/-- A JavaScript cell value as delivered inside a data frame column. -/
inductive JsVal where
  | num (n : JsNum) : JsVal
  | str (s : String) : JsVal
  | boolean (b : Bool) : JsVal
  | nullV : JsVal
  | undef : JsVal
deriving DecidableEq, Repr

/-- Value of a nonempty digit string, or none when a non-digit occurs. -/
def digitsVal (l : List Char) : Option ℕ :=
  l.foldl (fun acc c =>
    match acc with
    | none => none
    | some n => if c.isDigit then some (n * 10 + (c.toNat - 48)) else none) (some 0)

/-- Split a character list at the first dot; none when a second dot occurs. -/
def splitOnDot : List Char → Option (List Char × List Char)
  | [] => some ([], [])
  | '.' :: r => if r.contains '.' then none else some ([], r)
  | c :: r =>
      match splitOnDot r with
      | some (a, b) => some (c :: a, b)
      | none => none

/-- Whitespace for the purposes of JS numeric conversion. -/
def isWhiteChar (c : Char) : Bool :=
  decide (c = ' ' ∨ c = '\t' ∨ c = '\n' ∨ c = '\r')

/-- Strip leading and trailing whitespace from a character list. -/
def trimChars (l : List Char) : List Char :=
  ((l.dropWhile isWhiteChar).reverse.dropWhile isWhiteChar).reverse

/-- Decimal fragment of the JS string-to-number builtin: optional sign,
digits with at most one dot, surrounding whitespace trimmed, empty string
converts to 0; any other shape fails (NaN). -/
def parseJsNumber (s : String) : Option ℚ :=
  let cs := trimChars s.data
  if cs = [] then some 0
  else
    let sgnRest : ℚ × List Char :=
      match cs with
      | '-' :: r => (-1, r)
      | '+' :: r => (1, r)
      | r => (1, r)
    match splitOnDot sgnRest.2 with
    | none => none
    | some (a, b) =>
        if a = [] ∧ b = [] then none
        else
          match digitsVal a, digitsVal b with
          | some ia, some ib =>
              some (sgnRest.1 * ((ia : ℚ) + (ib : ℚ) / ((10 : ℚ) ^ b.length)))
          | _, _ => none

/-- The JS ToNumber coercion on cell values. -/
def toNumber : JsVal → JsNum
  | JsVal.num n => n
  | JsVal.str s =>
      match parseJsNumber s with
      | some q => JsNum.fin q
      | none => JsNum.nan
  | JsVal.boolean b => JsNum.fin (if b then 1 else 0)
  | JsVal.nullV => JsNum.fin 0
  | JsVal.undef => JsNum.nan

/-- Decimal rendering of a finite JS number.  Integral values render as
their decimal digits; the non-integral shortest-round-trip rendering of the
builtin is approximated by the rational literal (no claim depends on it). -/
def jsNumToString (q : ℚ) : String :=
  if q.den = 1 then toString q.num else toString q

/-- The JS ToString coercion on cell values. -/
def jsToString : JsVal → String
  | JsVal.num JsNum.nan => "NaN"
  | JsVal.num (JsNum.fin q) => jsNumToString q
  | JsVal.str s => s
  | JsVal.boolean b => if b then "true" else "false"
  | JsVal.nullV => "null"
  | JsVal.undef => "undefined"

/-- The JS ToBoolean coercion on cell values. -/
def toBool : JsVal → Bool
  | JsVal.num JsNum.nan => false
  | JsVal.num (JsNum.fin q) => decide (q ≠ 0)
  | JsVal.str s => decide (s ≠ "")
  | JsVal.boolean b => b
  | JsVal.nullV => false
  | JsVal.undef => false

/-- One named column of a data frame. -/
structure DataField where
  name : String
  values : List JsVal
deriving DecidableEq, Repr

/-- A tabular frame as delivered by the host: a declared row count and an
ordered list of named columns.  Reading a cell beyond a column's backing
array yields undefined, exactly as in the source language. -/
structure DataFrame where
  length : ℕ
  fields : List DataField
deriving DecidableEq, Repr

/-- ASCII lowercasing of one character (the toLowerCase builtin on the
ASCII column names the repository uses). -/
def lowerChar (c : Char) : Char :=
  if 65 ≤ c.toNat ∧ c.toNat ≤ 90 then Char.ofNat (c.toNat + 32) else c

/-- ASCII lowercasing of a column name. -/
def lowerName (s : String) : String := String.mk (s.data.map lowerChar)

/-- Case-insensitive field lookup; the first matching column wins
(function findField of the parser module). -/
def findField (frame : DataFrame) (fieldName : String) : Option DataField :=
  frame.fields.find? (fun f => lowerName f.name == lowerName fieldName)

/-- The three-valued size category of a node. -/
inductive NodeSize where
  | sm : NodeSize
  | md : NodeSize
  | lg : NodeSize
deriving DecidableEq, Repr

/-- Free-form size strings normalize to the size enum (parseNodeSize). -/
def parseNodeSize (value : String) : NodeSize :=
  let normalized := lowerName value
  if normalized = "sm" ∨ normalized = "small" then NodeSize.sm
  else if normalized = "lg" ∨ normalized = "large" then NodeSize.lg
  else NodeSize.md

/-- A parsed node record (RawNode3DData of types.ts).  Optional metric
attributes are `Option JsNum`: `none` means the attribute is absent from
the record, `some JsNum.nan` means it is present but holds NaN. -/
structure RawNode3DData where
  id : String
  label : String
  layerOrder : JsNum
  size : NodeSize
  isCenter : Bool
  cifrb : Option JsNum
  ccu : Option JsNum
  transactions : Option JsNum
  transactionsIn10Min : Option JsNum
deriving DecidableEq, Repr

/-- A placeholder record used only as the default of list indexing. -/
def defaultNode : RawNode3DData :=
  ⟨"", "", JsNum.fin 0, NodeSize.md, false, none, none, none, none⟩

/-- Reading cell i of a column: index past the backing array is undefined. -/
def cellAt (f : DataField) (i : ℕ) : JsVal := f.values.getD i JsVal.undef

/-- One row of the node parser's loop body (the object literal of
parseNodesFromDataFrame plus its four optional-metric assignments). -/
def mkNodeRow (frame : DataFrame) (i : ℕ) : RawNode3DData where
  id :=
    match findField frame "id" with
    | some f => jsToString (cellAt f i)
    | none => "node-" ++ toString i
  label :=
    match findField frame "label" with
    | some f => jsToString (cellAt f i)
    | none => "Node " ++ toString i
  layerOrder :=
    match findField frame "layerOrder" with
    | some f => toNumber (cellAt f i)
    | none => JsNum.fin 1
  size :=
    match findField frame "size" with
    | some f => parseNodeSize (jsToString (cellAt f i))
    | none => NodeSize.md
  isCenter :=
    match findField frame "isCenter" with
    | some f => toBool (cellAt f i)
    | none => false
  cifrb := (findField frame "cifrb").map (fun f => toNumber (cellAt f i))
  ccu := (findField frame "ccu").map (fun f => toNumber (cellAt f i))
  transactions := (findField frame "transactions").map (fun f => toNumber (cellAt f i))
  transactionsIn10Min :=
    (findField frame "transactionsIn10Min").map (fun f => toNumber (cellAt f i))

/-- Per-frame contribution of parseNodesFromDataFrame: a frame with none of
the id, label, layerOrder columns is skipped; otherwise each of its rows is
parsed in order. -/
def frameNodes (frame : DataFrame) : List RawNode3DData :=
  if (findField frame "id").isNone ∧ (findField frame "label").isNone ∧
      (findField frame "layerOrder").isNone then []
  else (List.range frame.length).map (mkNodeRow frame)

/-- parseNodesFromDataFrame of the parser module: empty input yields the
empty list, otherwise the per-frame contributions accumulate in order. -/
def parseNodesFromDataFrame (dataFrames : List DataFrame) : List RawNode3DData :=
  if dataFrames.isEmpty then []
  else dataFrames.foldl (fun acc frame => acc ++ frameNodes frame) []

/-- The truthiness fallback of the aggregate parser: JS `x || 0` on a
number is 0 for NaN (and for 0 itself), the value otherwise. -/
def orZero : JsNum → ℚ
  | JsNum.nan => 0
  | JsNum.fin q => q

/-- Loop of parseTransactionData: scan frames for the two aggregate
columns, overwrite the accumulators with the first-row value of a found
column, and stop early when one frame carries both columns. -/
def txGo : List DataFrame → ℚ → ℚ → ℚ × ℚ
  | [], a, b => (a, b)
  | frame :: rest, a, b =>
      let fc := findField frame "sumCIFRB"
      let ft := findField frame "sumCIFRBIn10Min"
      let a' :=
        match fc with
        | some fld => if 0 < frame.length then orZero (toNumber (cellAt fld 0)) else a
        | none => a
      let b' :=
        match ft with
        | some fld => if 0 < frame.length then orZero (toNumber (cellAt fld 0)) else b
        | none => b
      if fc.isSome && ft.isSome then (a', b') else txGo rest a' b'

/-- parseTransactionData of the parser module: zero-initialized aggregate
pair, first-row values only. -/
def parseTransactionData (dataFrames : List DataFrame) : ℚ × ℚ :=
  if dataFrames.isEmpty then (0, 0) else txGo dataFrames 0 0

/-- Numeric radius of a node by size category (getNodeSize of Node3D.tsx):
center nodes are fixed at 12, satellites at 3 / 5 / 7. -/
def getNodeSize (size : NodeSize) (isCenter : Bool) : ℚ :=
  if isCenter then 12
  else
    match size with
    | NodeSize.sm => 3
    | NodeSize.lg => 7
    | NodeSize.md => 5

/-- Mesh color by center flag (getNodeColor of Node3D.tsx); the source
returns the same hex value on both branches. -/
def getNodeColor (isCenter : Bool) : ℕ :=
  if isCenter then 0x0099FF else 0x0099FF

/-- Material parameters of createNodeMesh of Node3D.tsx: the vertex-color
gradient and the wireframe overlay both derive from getNodeColor, the body
opacity is 0.9 and the wireframe opacity 0.4, independent of the record. -/
structure MeshStyle where
  gradientBase : ℕ
  wireColor : ℕ
  meshOpacity : ℚ
  wireOpacity : ℚ
deriving DecidableEq, Repr

/-- The mesh styling createNodeMesh applies for a given center flag. -/
def nodeMeshStyle (isCenter : Bool) : MeshStyle :=
  ⟨getNodeColor isCenter, getNodeColor isCenter, 9 / 10, 2 / 5⟩

/-- CSS parameters of the label container of createNodeLabelHTML. -/
structure LabelStyle where
  background : String
  borderColor : String
  padding : String
  fontSize : String
  borderRadius : String
  shadowBlur : String
  shadowAlpha : ℚ
deriving DecidableEq, Repr

/-- The label container styling for a given center flag, transcribed from
the style template of createNodeLabelHTML. -/
def nodeLabelStyle (isCenter : Bool) : LabelStyle where
  background := if isCenter then "rgba(0, 40, 120, 0.9)" else "rgba(0, 80, 200, 0.85)"
  borderColor := if isCenter then "#00e5ff" else "#00ffff"
  padding := if isCenter then "12px 14px" else "8px 12px"
  fontSize := if isCenter then "15px" else "12px"
  borderRadius := if isCenter then "6px" else "4px"
  shadowBlur := if isCenter then "15px" else "12px"
  shadowAlpha := if isCenter then 7 / 10 else 3 / 5

/-- One decimal digit of precision, rounded as the JS toFixed builtin
rounds (of the two nearest candidates the larger is chosen). -/
def toFixed1 (q : ℚ) : String :=
  let n : ℤ := ⌊q * 10 + 1 / 2⌋
  (if n < 0 then "-" else "") ++ toString (n.natAbs / 10) ++ "." ++ toString (n.natAbs % 10)

/-- formatNumber of Node3D.tsx: M suffix from 1,000,000, K suffix from
1,000, plain decimal rendering below; NaN fails both threshold comparisons
and renders as its own decimal string. -/
def formatNumber : JsNum → String
  | JsNum.nan => "NaN"
  | JsNum.fin q =>
      if 1000000 ≤ q then toFixed1 (q / 1000000) ++ "M"
      else if 1000 ≤ q then toFixed1 (q / 1000) ++ "K"
      else jsNumToString q

/-- The textual content of a node label: a title line and metric lines. -/
structure NodeLabel where
  title : String
  metrics : List String
deriving DecidableEq, Repr

/-- One metric line of createNodeLabelHTML: emitted only when the metric is
present on the record and the record is not a center node. -/
def metricLine (tag : String) (v : Option JsNum) (isCenter : Bool) : List String :=
  match v with
  | some n => if isCenter then [] else [tag ++ formatNumber n]
  | none => []

/-- createNodeLabelHTML of Node3D.tsx, restricted to its textual content:
the bold title line carries the record's label, then each of the four
metrics contributes a line when defined on a non-center record. -/
def createNodeLabelHTML (nd : RawNode3DData) : NodeLabel where
  title := nd.label
  metrics :=
    metricLine "CIFRB: " nd.cifrb nd.isCenter ++
    metricLine "CCU: " nd.ccu nd.isCenter ++
    metricLine "Trans: " nd.transactions nd.isCenter ++
    metricLine "10min: " nd.transactionsIn10Min nd.isCenter

/-- The metric lines present on a record, with no center-node guard; used
to phrase amended label claims. -/
def metricLineAll (tag : String) (v : Option JsNum) : List String :=
  match v with
  | some n => [tag ++ formatNumber n]
  | none => []

/-- All metric lines a record carries, ignoring the center flag. -/
def presentMetricLines (nd : RawNode3DData) : List String :=
  metricLineAll "CIFRB: " nd.cifrb ++
  metricLineAll "CCU: " nd.ccu ++
  metricLineAll "Trans: " nd.transactions ++
  metricLineAll "10min: " nd.transactionsIn10Min

/-- Non-center nodes, in input order (the layerNodes filter of the update
effect of ThreeViz.tsx). -/
def layerNodes (nodes : List RawNode3DData) : List RawNode3DData :=
  nodes.filter (fun n => !n.isCenter)

/-- Center nodes, in input order (the centerNodes filter). -/
def centerNodes (nodes : List RawNode3DData) : List RawNode3DData :=
  nodes.filter (fun n => n.isCenter)

/-- One step of building the layer map: a node joins the entry of its
layerOrder key when one exists, otherwise opens a fresh entry at the end
(the Map has / get-push / set sequence of the update effect).  Key equality
is the SameValueZero equality of JS Map keys, which on our number model
coincides with equality of JsNum. -/
def addToLayer (acc : List (JsNum × List RawNode3DData)) (n : RawNode3DData) :
    List (JsNum × List RawNode3DData) :=
  if acc.any (fun p => decide (p.1 = n.layerOrder)) then
    acc.map (fun p => if p.1 = n.layerOrder then (p.1, p.2 ++ [n]) else p)
  else acc ++ [(n.layerOrder, [n])]

/-- nodesByLayer of the update effect: non-center nodes grouped by
layerOrder, entries in first-occurrence order of the keys. -/
def nodesByLayer (nodes : List RawNode3DData) : List (JsNum × List RawNode3DData) :=
  (layerNodes nodes).foldl addToLayer []

/-- The layer keys in insertion order (Array.from of the Map keys). -/
def layerKeys (nodes : List RawNode3DData) : List JsNum :=
  (nodesByLayer nodes).map Prod.fst

/-- JS Math.max on two numbers: NaN absorbs. -/
def jsMax : JsNum → JsNum → JsNum
  | JsNum.nan, _ => JsNum.nan
  | JsNum.fin _, JsNum.nan => JsNum.nan
  | JsNum.fin a, JsNum.fin b => JsNum.fin (max a b)

/-- Math.max(numberOfLayers, ...keys) of the ring loop. -/
def maxLayerJs (nodes : List RawNode3DData) (numberOfLayers : ℕ) : JsNum :=
  (layerKeys nodes).foldl jsMax (JsNum.fin numberOfLayers)

/-- Number of executions of a JS loop for i = 1; i <= bound; i++ whose
bound is a JS number: none for NaN, the clamped floor otherwise. -/
def iterCount : JsNum → ℕ
  | JsNum.nan => 0
  | JsNum.fin q => (⌊q⌋).toNat

/-- Radius of the ring guide of layer index i (15 + (i - 1) * 7, the
formula shared by the ring loop and the layer placement loop). -/
def ringRadius (i : ℚ) : ℚ := 15 + (i - 1) * 7

/-- Radii of the ring guides produced by one update: one ring per loop
index i = 1 .. Math.max(numberOfLayers, ...observed layer keys). -/
def ringRadii (nodes : List RawNode3DData) (numberOfLayers : ℕ) : List ℚ :=
  (List.range (iterCount (maxLayerJs nodes numberOfLayers))).map
    (fun j : ℕ => ringRadius ((j : ℚ) + 1))

/-- The spec-side ring bound: the configured layer count joined with the
floor of every non-center node's layerOrder, read off the node list
directly rather than off the deduplicated Map keys. -/
def jsFloorNat : JsNum → ℕ
  | JsNum.nan => 0
  | JsNum.fin q => (⌊q⌋).toNat

/-- Highest required layer per the spec: max of the configured count and
every observed non-center layerOrder. -/
def specMaxLayer (nodes : List RawNode3DData) (numberOfLayers : ℕ) : ℕ :=
  nodes.foldl
    (fun acc n => if n.isCenter then acc else max acc (jsFloorNat n.layerOrder)) numberOfLayers

/-- Radius of a layer circle as the code computes it from the layer key:
NaN propagates through the arithmetic. -/
def jsRadius : JsNum → JsNum
  | JsNum.nan => JsNum.nan
  | JsNum.fin q => JsNum.fin (15 + (q - 1) * 7)

/-- The spatial placement of one layer node: the circle radius and the
angle as a fraction of a full turn (the source sets the position to
(cos(angle) * radius, 0, sin(angle) * radius) with angle =
index * (2*pi / count)). -/
structure Placement where
  node : RawNode3DData
  radiusJs : JsNum
  angleTurns : ℚ
deriving DecidableEq, Repr

/-- The layer-node placement loop of the update effect: per layer entry, in
map order, each node of the layer at equal angular increments. -/
def layerPlacements (nodes : List RawNode3DData) : List Placement :=
  ((nodesByLayer nodes).map (fun p =>
    (p.2.enum).map (fun e =>
      Placement.mk e.2 (jsRadius p.1) ((e.1 : ℚ) / (p.2.length : ℚ))))).flatten

/-- Tagged objects created by the center-node loop of the update effect:
one mesh group per center record, preceded at index 0 by the inner core. -/
inductive CenterObj where
  | core (nd : RawNode3DData) : CenterObj
  | mesh (nd : RawNode3DData) : CenterObj
deriving DecidableEq, Repr

/-- Whether a created object is the inner core. -/
def isCoreObj : CenterObj → Bool
  | CenterObj.core _ => true
  | CenterObj.mesh _ => false

/-- The center-node render loop of the update effect: per center record at
its index, the inner core is created only when the index is 0, attached
before the mesh group. -/
def renderCenterNodes (centers : List RawNode3DData) : List CenterObj :=
  (centers.enum.map (fun e =>
    (if e.1 = 0 then [CenterObj.core e.2] else []) ++ [CenterObj.mesh e.2])).flatten

/-- A visual object of the scene graph as the lifecycle model sees it: an
allocation identifier and the identifiers of its directly attached child
objects (a node's mesh group holds its body mesh, wireframe overlay and
CSS2D label; cores and ring lines hold nothing). -/
structure VisObj where
  id : ℕ
  kids : List ℕ
deriving DecidableEq, Repr

/-- The disposal trace of disposeNode of ThreeViz.tsx on one attached
object: children are removed and released first, then the object itself. -/
def disposeTrace (o : VisObj) : List ℕ := o.kids ++ [o.id]

/-- The mutable scene state owned by the component: the children of the
node group and of the rings group, the trace of all releases performed so
far (with multiplicity, so double release would be visible), the next fresh
allocation identifier, and the mounted flag. -/
structure SceneState where
  nodeChildren : List VisObj
  ringChildren : List VisObj
  disposedLog : List ℕ
  nextId : ℕ
  mounted : Bool
deriving DecidableEq, Repr

/-- Visuals built by the center loop: createNodeMesh allocates the group
and its two meshes, index 0 additionally allocates the inner core, and the
label is allocated and attached to the group afterwards.  The core is
attached to the node group before the mesh group, as in the source. -/
def buildCenters : List RawNode3DData → ℕ → ℕ → List VisObj × ℕ
  | [], _, s => ([], s)
  | _ :: rest, idx, s =>
      if idx = 0 then
        let here : List VisObj := [⟨s + 3, []⟩, ⟨s, [s + 1, s + 2, s + 4]⟩]
        let next := buildCenters rest (idx + 1) (s + 5)
        (here ++ next.1, next.2)
      else
        let next := buildCenters rest (idx + 1) (s + 4)
        (⟨s, [s + 1, s + 2, s + 3]⟩ :: next.1, next.2)

/-- Visuals built by the ring loop: one childless line object per ring. -/
def buildRings (count : ℕ) (s : ℕ) : List VisObj × ℕ :=
  ((List.range count).map (fun j => VisObj.mk (s + j) []), s + count)

/-- Visuals built by the layer-node loop: per node a mesh group holding its
body mesh, wireframe overlay and label. -/
def buildLayerVisuals : List RawNode3DData → ℕ → List VisObj × ℕ
  | [], s => ([], s)
  | _ :: rest, s =>
      let next := buildLayerVisuals rest (s + 4)
      (⟨s, [s + 1, s + 2, s + 3]⟩ :: next.1, next.2)

/-- The data-update effect of ThreeVisualize3D: every current child of the
node group and of the rings group is removed and recursively released, then
the center visuals, ring guides and layer visuals of the new node list are
built and attached. -/
def updateScene (nodes : List RawNode3DData) (numberOfLayers : ℕ) (st : SceneState) :
    SceneState :=
  let log1 := st.disposedLog ++ (st.nodeChildren.map disposeTrace).flatten ++
    (st.ringChildren.map disposeTrace).flatten
  let centerBuilt := buildCenters (centerNodes nodes) 0 st.nextId
  let ringBuilt := buildRings (iterCount (maxLayerJs nodes numberOfLayers)) centerBuilt.2
  let layerList := ((nodesByLayer nodes).map Prod.snd).flatten
  let layerBuilt := buildLayerVisuals layerList ringBuilt.2
  ⟨centerBuilt.1 ++ layerBuilt.1, ringBuilt.1, log1, layerBuilt.2, st.mounted⟩

/-- The mount effect: empty node and ring groups, nothing released yet. -/
def mountScene : SceneState := ⟨[], [], [], 0, true⟩

/-- The unmount cleanup of ThreeVisualize3D: it cancels the render loop,
releases the renderer and detaches the two canvases, but performs no
release of the attached node or ring visuals (the data-update effect
installs no cleanup of its own), so the disposal trace is unchanged. -/
def unmountScene (st : SceneState) : SceneState :=
  ⟨st.nodeChildren, st.ringChildren, st.disposedLog, st.nextId, false⟩

/-! Helper lemmas about the parser. -/

/-- Accumulating the per-frame contributions is flattening them. -/
theorem foldl_append_frameNodes (l : List DataFrame) (acc : List RawNode3DData) :
    l.foldl (fun a f => a ++ frameNodes f) acc = acc ++ (l.map frameNodes).flatten := by
  induction l generalizing acc with
  | nil => simp
  | cons f rest ih => simp [List.foldl_cons, ih (acc ++ frameNodes f)]

/-- The parser output is exactly the concatenation of per-frame
contributions, in frame order. -/
theorem parseNodes_eq_flatten (dfs : List DataFrame) :
    parseNodesFromDataFrame dfs = (dfs.map frameNodes).flatten := by
  unfold parseNodesFromDataFrame
  by_cases h : dfs.isEmpty
  · rw [if_pos h]
    rw [List.isEmpty_iff] at h
    subst h
    simp
  · rw [if_neg h, foldl_append_frameNodes, List.nil_append]

/-- A frame carrying at least one of the three node columns is parsed row
by row. -/
theorem frameNodes_of_hasFields (frame : DataFrame)
    (h : ¬(findField frame "id" = none ∧ findField frame "label" = none ∧
      findField frame "layerOrder" = none)) :
    frameNodes frame = (List.range frame.length).map (mkNodeRow frame) := by
  unfold frameNodes
  rw [if_neg]
  simpa [Option.isNone_iff_eq_none] using h

/-- Indexing into the image of the range enumerator. -/
theorem getD_map_range {α : Type} (f : ℕ → α) (d : α) {j n : ℕ} (hj : j < n) :
    ((List.range n).map f).getD j d = f j := by
  rw [List.getD_eq_getElem?_getD, List.getElem?_map, List.getElem?_range hj]
  rfl

/-- Claim C1: a frame containing at least one of the id, label, layerOrder
columns and carrying N rows contributes exactly N node records, in row
order; a row whose frame is missing a required column receives the
deterministic default: id "node-i", label "Node i", layerOrder 1; and the
full parser output is the in-order concatenation of frame contributions. -/
theorem c1_row_contribution (frame : DataFrame)
    (h : ¬(findField frame "id" = none ∧ findField frame "label" = none ∧
      findField frame "layerOrder" = none)) :
    (frameNodes frame).length = frame.length ∧
    (∀ j, j < frame.length → (frameNodes frame).getD j defaultNode = mkNodeRow frame j) ∧
    (findField frame "id" = none → ∀ j, j < frame.length →
      ((frameNodes frame).getD j defaultNode).id = "node-" ++ toString j) ∧
    (findField frame "label" = none → ∀ j, j < frame.length →
      ((frameNodes frame).getD j defaultNode).label = "Node " ++ toString j) ∧
    (findField frame "layerOrder" = none → ∀ j, j < frame.length →
      ((frameNodes frame).getD j defaultNode).layerOrder = JsNum.fin 1) ∧
    (∀ dfs, parseNodesFromDataFrame dfs = (dfs.map frameNodes).flatten) := by
  have hrow : ∀ j, j < frame.length →
      (frameNodes frame).getD j defaultNode = mkNodeRow frame j := by
    intro j hj
    rw [frameNodes_of_hasFields frame h, getD_map_range _ _ hj]
  refine ⟨?_, hrow, ?_, ?_, ?_, parseNodes_eq_flatten⟩
  · rw [frameNodes_of_hasFields frame h]; simp
  · intro hid j hj
    rw [hrow j hj]
    simp [mkNodeRow, hid]
  · intro hlabel j hj
    rw [hrow j hj]
    simp [mkNodeRow, hlabel]
  · intro hlo j hj
    rw [hrow j hj]
    simp [mkNodeRow, hlo]

/-- A two-row frame carrying only a label column. -/
def frameLabelOnly : DataFrame := ⟨2, [⟨"label", [JsVal.str "A", JsVal.str "B"]⟩]⟩

/-- Witness for claim C1 at a concrete frame: two rows with only a label
column yield two records whose first record carries the defaults. -/
theorem c1_row_contribution_witness :
    (frameNodes frameLabelOnly).length = 2 ∧
    ((frameNodes frameLabelOnly).getD 0 defaultNode).id = "node-" ++ toString 0 ∧
    ((frameNodes frameLabelOnly).getD 0 defaultNode).layerOrder = JsNum.fin 1 := by
  have H := c1_row_contribution frameLabelOnly (by decide)
  exact ⟨H.1, H.2.2.1 (by decide) 0 (by decide), H.2.2.2.2.1 (by decide) 0 (by decide)⟩

/-- A one-row frame carrying label and layerOrder columns but no id. -/
def frameNoId : DataFrame :=
  ⟨1, [⟨"label", [JsVal.str "A"]⟩, ⟨"layerOrder", [JsVal.num (JsNum.fin 2)]⟩]⟩

/-- Counterexample to claim C2: a frame missing only the id column (label
and layerOrder present) contributes one record per row, not zero. -/
theorem c2_missing_one_column_counterexample :
    (parseNodesFromDataFrame [frameNoId]).length = 1 := by decide

/-- Claim C2 amended: only a frame missing all three of the id, label and
layerOrder columns contributes zero node records (it is skipped as
non-node data); missing merely one or two of them leaves the frame parsed
row by row with defaults. -/
theorem c2_all_three_missing_skips (frame : DataFrame)
    (hid : findField frame "id" = none)
    (hlabel : findField frame "label" = none)
    (hlo : findField frame "layerOrder" = none) :
    frameNodes frame = [] ∧ parseNodesFromDataFrame [frame] = [] := by
  have h : frameNodes frame = [] := by
    unfold frameNodes
    rw [if_pos]
    exact ⟨by simp [hid], by simp [hlabel], by simp [hlo]⟩
  refine ⟨h, ?_⟩
  rw [parseNodes_eq_flatten]
  simp [h]

/-- A two-row aggregate-shaped frame with none of the node columns. -/
def frameAggregateShaped : DataFrame :=
  ⟨2, [⟨"sumCIFRB", [JsVal.num (JsNum.fin 9), JsVal.num (JsNum.fin 1)]⟩]⟩

/-- Witness for the amended claim C2 at a concrete aggregate frame. -/
theorem c2_all_three_missing_skips_witness :
    frameNodes frameAggregateShaped = [] ∧
    parseNodesFromDataFrame [frameAggregateShaped] = [] :=
  c2_all_three_missing_skips frameAggregateShaped (by decide) (by decide) (by decide)

/-- Claim C8: a metric column absent from the frame leaves the record's
attribute absent (none, not zero); a metric column that is present stores
exactly the numeric coercion of the row's cell, so a failed coercion is
kept as NaN with no substitute and no failure path. -/
theorem c8_optional_metrics (frame : DataFrame)
    (h : ¬(findField frame "id" = none ∧ findField frame "label" = none ∧
      findField frame "layerOrder" = none))
    (j : ℕ) (hj : j < frame.length) :
    ((findField frame "cifrb" = none →
        ((frameNodes frame).getD j defaultNode).cifrb = none) ∧
      (∀ fld, findField frame "cifrb" = some fld →
        ((frameNodes frame).getD j defaultNode).cifrb = some (toNumber (cellAt fld j)))) ∧
    ((findField frame "ccu" = none →
        ((frameNodes frame).getD j defaultNode).ccu = none) ∧
      (∀ fld, findField frame "ccu" = some fld →
        ((frameNodes frame).getD j defaultNode).ccu = some (toNumber (cellAt fld j)))) ∧
    ((findField frame "transactions" = none →
        ((frameNodes frame).getD j defaultNode).transactions = none) ∧
      (∀ fld, findField frame "transactions" = some fld →
        ((frameNodes frame).getD j defaultNode).transactions =
          some (toNumber (cellAt fld j)))) ∧
    ((findField frame "transactionsIn10Min" = none →
        ((frameNodes frame).getD j defaultNode).transactionsIn10Min = none) ∧
      (∀ fld, findField frame "transactionsIn10Min" = some fld →
        ((frameNodes frame).getD j defaultNode).transactionsIn10Min =
          some (toNumber (cellAt fld j)))) := by
  have hrow : (frameNodes frame).getD j defaultNode = mkNodeRow frame j := by
    rw [frameNodes_of_hasFields frame h, getD_map_range _ _ hj]
  rw [hrow]
  refine ⟨⟨?_, ?_⟩, ⟨?_, ?_⟩, ⟨?_, ?_⟩, ⟨?_, ?_⟩⟩ <;>
    first
      | (intro hnone; simp [mkNodeRow, hnone])
      | (intro fld hsome; simp [mkNodeRow, hsome])

/-- A one-row frame whose cifrb cell is a non-numeric string and whose ccu
column is absent. -/
def frameBadMetric : DataFrame :=
  ⟨1, [⟨"id", [JsVal.str "x"]⟩, ⟨"cifrb", [JsVal.str "abc"]⟩]⟩

/-- Witness for claim C8 at a concrete frame: the malformed cifrb cell
yields a present NaN attribute, the absent ccu column an absent one. -/
theorem c8_optional_metrics_witness :
    ((frameNodes frameBadMetric).getD 0 defaultNode).cifrb = some JsNum.nan ∧
    ((frameNodes frameBadMetric).getD 0 defaultNode).ccu = none := by
  have H := c8_optional_metrics frameBadMetric (by decide) 0 (by decide)
  refine ⟨(H.1.2 ⟨"cifrb", [JsVal.str "abc"]⟩ (by decide)).trans (by decide),
    H.2.1.1 (by decide)⟩

/-! Helper lemmas about the aggregate parser. -/

/-- Frames carrying neither aggregate column leave the accumulators as
they are. -/
theorem txGo_of_no_columns (dfs : List DataFrame) (a b : ℚ)
    (h : ∀ f ∈ dfs, findField f "sumCIFRB" = none ∧
      findField f "sumCIFRBIn10Min" = none) :
    txGo dfs a b = (a, b) := by
  induction dfs with
  | nil => rfl
  | cons f rest ih =>
      have hf := h f (List.mem_cons_self f rest)
      have hrest : ∀ g ∈ rest, findField g "sumCIFRB" = none ∧
          findField g "sumCIFRBIn10Min" = none :=
        fun g hg => h g (List.mem_cons_of_mem f hg)
      have hstep : txGo (f :: rest) a b = txGo rest a b := by
        simp [txGo, hf.1, hf.2]
      rw [hstep]
      exact ih hrest

/-- Claim C9: the aggregate parser reads only first-row values; with no
frame carrying either target column the result is the zero pair, and a
single frame carrying exactly one of the two columns yields that column's
first-row value next to 0 for the other. -/
theorem c9_aggregate_first_row :
    (∀ dfs : List DataFrame,
      (∀ f ∈ dfs, findField f "sumCIFRB" = none ∧
        findField f "sumCIFRBIn10Min" = none) →
      parseTransactionData dfs = (0, 0)) ∧
    (∀ (f : DataFrame) (fld : DataField) (q : ℚ),
      findField f "sumCIFRB" = some fld →
      findField f "sumCIFRBIn10Min" = none →
      0 < f.length →
      toNumber (cellAt fld 0) = JsNum.fin q →
      parseTransactionData [f] = (q, 0)) ∧
    (∀ (f : DataFrame) (fld : DataField) (q : ℚ),
      findField f "sumCIFRB" = none →
      findField f "sumCIFRBIn10Min" = some fld →
      0 < f.length →
      toNumber (cellAt fld 0) = JsNum.fin q →
      parseTransactionData [f] = (0, q)) := by
  refine ⟨?_, ?_, ?_⟩
  · intro dfs h
    unfold parseTransactionData
    by_cases he : dfs.isEmpty
    · rw [if_pos he]
    · rw [if_neg he, txGo_of_no_columns dfs 0 0 h]
  · intro f fld q h1 h2 hlen hq
    unfold parseTransactionData
    rw [if_neg (by simp)]
    simp [txGo, h1, h2, hlen, hq, orZero]
  · intro f fld q h1 h2 hlen hq
    unfold parseTransactionData
    rw [if_neg (by simp)]
    simp [txGo, h1, h2, hlen, hq, orZero]

/-- A one-row frame carrying only the sumCIFRB aggregate column. -/
def frameSumOnly : DataFrame := ⟨1, [⟨"sumCIFRB", [JsVal.num (JsNum.fin 7)]⟩]⟩

/-- Witness for claim C9: a frame with only sumCIFRB yields its first-row
value paired with 0, and an empty frame set yields the zero pair. -/
theorem c9_aggregate_first_row_witness :
    parseTransactionData [frameSumOnly] = (7, 0) ∧
    parseTransactionData [] = (0, 0) := by
  refine ⟨c9_aggregate_first_row.2.1 frameSumOnly
    ⟨"sumCIFRB", [JsVal.num (JsNum.fin 7)]⟩ 7 (by decide) (by decide) (by decide)
    (by decide), c9_aggregate_first_row.1 [] (by simp)⟩

/-- Claim C10: a present aggregate column whose first-row cell fails
numeric coercion is silently replaced by 0 by the truthiness fallback,
whereas the node-metric path stores the NaN itself on the record. -/
theorem c10_aggregate_nan_to_zero (f : DataFrame) (fld : DataField)
    (h1 : findField f "sumCIFRB" = some fld)
    (h2 : findField f "sumCIFRBIn10Min" = none)
    (hlen : 0 < f.length)
    (hnan : toNumber (cellAt fld 0) = JsNum.nan) :
    parseTransactionData [f] = (0, 0) ∧
    (∀ (frame : DataFrame) (fld2 : DataField) (j : ℕ),
      findField frame "cifrb" = some fld2 →
      toNumber (cellAt fld2 j) = JsNum.nan →
      (mkNodeRow frame j).cifrb = some JsNum.nan) := by
  refine ⟨?_, ?_⟩
  · unfold parseTransactionData
    rw [if_neg (by simp)]
    simp [txGo, h1, h2, hlen, hnan, orZero]
  · intro frame fld2 j hsome hn
    simp [mkNodeRow, hsome, hn]

/-- A one-row frame whose sumCIFRB first-row cell is a non-numeric
string. -/
def frameSumBad : DataFrame := ⟨1, [⟨"sumCIFRB", [JsVal.str "oops"]⟩]⟩

/-- A one-row node frame whose cifrb cell is the same non-numeric
string. -/
def frameNodeBad : DataFrame :=
  ⟨1, [⟨"id", [JsVal.str "x"]⟩, ⟨"cifrb", [JsVal.str "oops"]⟩]⟩

/-- Witness for claim C10: the malformed aggregate cell becomes 0 while
the same malformed node cell becomes a stored NaN. -/
theorem c10_aggregate_nan_to_zero_witness :
    parseTransactionData [frameSumBad] = (0, 0) ∧
    (mkNodeRow frameNodeBad 0).cifrb = some JsNum.nan := by
  have H := c10_aggregate_nan_to_zero frameSumBad ⟨"sumCIFRB", [JsVal.str "oops"]⟩
    (by decide) (by decide) (by decide) (by decide)
  exact ⟨H.1, H.2 frameNodeBad ⟨"cifrb", [JsVal.str "oops"]⟩ 0 (by decide) (by decide)⟩

/-! Grouping of layer nodes: the Map-building loop of the update effect. -/

/-- Invariant of the layer-grouping fold: keys are distinct, every entry
holds exactly the processed nodes of its key in processed order, every
processed node's key has an entry, and every key stems from a processed
node. -/
def GroupInv (processed : List RawNode3DData)
    (acc : List (JsNum × List RawNode3DData)) : Prop :=
  (acc.map Prod.fst).Nodup ∧
  (∀ L g, (L, g) ∈ acc →
    g = processed.filter (fun n => decide (n.layerOrder = L))) ∧
  (∀ n ∈ processed, n.layerOrder ∈ acc.map Prod.fst) ∧
  (∀ L g, (L, g) ∈ acc → ∃ n ∈ processed, n.layerOrder = L)

/-- Updating the matching entry leaves the key sequence untouched. -/
theorem map_fst_update (acc : List (JsNum × List RawNode3DData))
    (n : RawNode3DData) :
    (acc.map (fun p => if p.1 = n.layerOrder then (p.1, p.2 ++ [n]) else p)).map
      Prod.fst = acc.map Prod.fst := by
  rw [List.map_map]
  apply List.map_congr_left
  intro p _
  by_cases h : p.1 = n.layerOrder <;> simp [h]

/-- One grouping step preserves the invariant. -/
theorem groupInv_step (ps : List RawNode3DData)
    (acc : List (JsNum × List RawNode3DData)) (n : RawNode3DData)
    (h : GroupInv ps acc) : GroupInv (ps ++ [n]) (addToLayer acc n) := by
  obtain ⟨hnd, hent, hcomp, horig⟩ := h
  unfold addToLayer
  by_cases hany : acc.any (fun p => decide (p.1 = n.layerOrder)) = true
  · rw [if_pos hany]
    obtain ⟨p0, hp0, hp0eq⟩ := List.any_eq_true.1 hany
    rw [decide_eq_true_eq] at hp0eq
    refine ⟨?_, ?_, ?_, ?_⟩
    · rw [map_fst_update]; exact hnd
    · intro L g hmem
      obtain ⟨p, hp, hup⟩ := List.mem_map.1 hmem
      by_cases hc : p.1 = n.layerOrder
      · rw [if_pos hc] at hup
        obtain ⟨hL, hg⟩ := Prod.mk.injEq .. ▸ hup
        subst hL; subst hg
        rw [List.filter_append, ← hent p.1 p.2 hp]
        simp [hc.symm]
      · rw [if_neg hc] at hup
        subst hup
        rw [List.filter_append, ← hent L g hp]
        simp only [] at hc
        have hne : ¬(n.layerOrder = L) := fun hx => hc hx.symm
        simp [hne]
    · intro m hm
      rw [map_fst_update]
      rcases List.mem_append.1 hm with hm | hm
      · exact hcomp m hm
      · have : m = n := by simpa using hm
        subst this
        exact List.mem_map.2 ⟨p0, hp0, hp0eq⟩
    · intro L g hmem
      obtain ⟨p, hp, hup⟩ := List.mem_map.1 hmem
      have hL : p.1 = L := by
        by_cases hc : p.1 = n.layerOrder
        · rw [if_pos hc] at hup
          exact congrArg Prod.fst hup
        · rw [if_neg hc] at hup
          exact congrArg Prod.fst hup
      obtain ⟨m, hm, hmk⟩ := horig p.1 p.2 hp
      exact ⟨m, List.mem_append_left _ hm, hL ▸ hmk⟩
  · rw [if_neg hany]
    have hnotin : n.layerOrder ∉ acc.map Prod.fst := by
      intro hin
      obtain ⟨p, hp, hpk⟩ := List.mem_map.1 hin
      exact hany (List.any_eq_true.2 ⟨p, hp, decide_eq_true hpk⟩)
    refine ⟨?_, ?_, ?_, ?_⟩
    · rw [List.map_append]
      refine List.nodup_append.2 ⟨hnd, List.nodup_singleton _, ?_⟩
      intro a ha hb
      have : a = n.layerOrder := by simpa using hb
      exact hnotin (this ▸ ha)
    · intro L g hmem
      rcases List.mem_append.1 hmem with hmem | hmem
      · have hLkey : L ∈ acc.map Prod.fst := List.mem_map.2 ⟨(L, g), hmem, rfl⟩
        have hne : ¬(n.layerOrder = L) := fun hx => hnotin (hx ▸ hLkey)
        rw [List.filter_append, ← hent L g hmem]
        simp [hne]
      · have : L = n.layerOrder ∧ g = [n] := by simpa using hmem
        obtain ⟨hL, hg⟩ := this
        subst hL; subst hg
        have hps : ps.filter (fun m => decide (m.layerOrder = n.layerOrder)) = [] := by
          rw [List.filter_eq_nil_iff]
          intro m hm hmk
          rw [decide_eq_true_eq] at hmk
          exact hnotin (hmk ▸ hcomp m hm)
        rw [List.filter_append, hps]
        simp
    · intro m hm
      rw [List.map_append]
      rcases List.mem_append.1 hm with hm | hm
      · exact List.mem_append_left _ (hcomp m hm)
      · have : m = n := by simpa using hm
        subst this
        simp
    · intro L g hmem
      rcases List.mem_append.1 hmem with hmem | hmem
      · obtain ⟨m, hm, hmk⟩ := horig L g hmem
        exact ⟨m, List.mem_append_left _ hm, hmk⟩
      · have hpair : L = n.layerOrder ∧ g = [n] := by simpa using hmem
        exact ⟨n, List.mem_append_right _ (by simp), hpair.1.symm⟩

/-- The grouping fold preserves the invariant along any node list. -/
theorem groupInv_foldl (l : List RawNode3DData) :
    ∀ (ps : List RawNode3DData) (acc : List (JsNum × List RawNode3DData)),
      GroupInv ps acc → GroupInv (ps ++ l) (l.foldl addToLayer acc) := by
  induction l with
  | nil => intro ps acc h; simpa using h
  | cons x rest ih =>
      intro ps acc h
      have hstep := groupInv_step ps acc x h
      have := ih (ps ++ [x]) (addToLayer acc x) hstep
      simpa [List.append_assoc] using this

/-- The layer map of one update satisfies the grouping invariant. -/
theorem nodesByLayer_spec (nodes : List RawNode3DData) :
    GroupInv (layerNodes nodes) (nodesByLayer nodes) := by
  have h0 : GroupInv [] [] := ⟨List.nodup_nil, by simp, by simp, by simp⟩
  have := groupInv_foldl (layerNodes nodes) [] [] h0
  simpa [nodesByLayer] using this

/-- An in-range index pairs with the indexed element in the enumeration. -/
theorem mem_enum_getD {α : Type} [Inhabited α] (g : List α) (k : ℕ) (d : α)
    (hk : k < g.length) : (k, g.getD k d) ∈ g.enum := by
  rw [List.mem_enum_iff_getElem?]
  rw [List.getD_eq_getElem?_getD, List.getElem?_eq_getElem hk]
  rfl

/-- Claim C4: the non-center nodes partition by layerOrder with input
order preserved inside each layer (each layer's group is exactly the
in-order sublist of non-center nodes carrying that key, keys are distinct,
and every non-center node's key owns a group), and the k-th node of a
group of count nodes is placed on the circle of radius 15 + (layer - 1)*7
at angle k * (2*pi / count), i.e. k / count of a full turn. -/
theorem c4_layer_partition_and_placement (nodes : List RawNode3DData) :
    ((nodesByLayer nodes).map Prod.fst).Nodup ∧
    (∀ n ∈ layerNodes nodes, n.layerOrder ∈ (nodesByLayer nodes).map Prod.fst) ∧
    (∀ L g, (L, g) ∈ nodesByLayer nodes →
      g = (layerNodes nodes).filter (fun n => decide (n.layerOrder = L)) ∧
      (∀ k, k < g.length →
        Placement.mk (g.getD k defaultNode) (jsRadius L) ((k : ℚ) / (g.length : ℚ)) ∈
          layerPlacements nodes)) := by
  obtain ⟨hnd, hent, hcomp, _⟩ := nodesByLayer_spec nodes
  refine ⟨hnd, hcomp, ?_⟩
  intro L g hmem
  refine ⟨hent L g hmem, ?_⟩
  intro k hk
  unfold layerPlacements
  rw [List.mem_flatten]
  refine ⟨(g.enum).map (fun e =>
    Placement.mk e.2 (jsRadius L) ((e.1 : ℚ) / (g.length : ℚ))), ?_, ?_⟩
  · exact List.mem_map.2 ⟨(L, g), hmem, rfl⟩
  · have : Inhabited RawNode3DData := ⟨defaultNode⟩
    exact List.mem_map.2 ⟨(k, g.getD k defaultNode), mem_enum_getD g k defaultNode hk, rfl⟩

/-- Concrete layer nodes used by layout witnesses. -/
def wNodeA : RawNode3DData :=
  ⟨"a", "A", JsNum.fin 1, NodeSize.md, false, none, none, none, none⟩

/-- A second layer node on another layer. -/
def wNodeB : RawNode3DData :=
  ⟨"b", "B", JsNum.fin 2, NodeSize.md, false, none, none, none, none⟩

/-- A third node sharing the first node's layer. -/
def wNodeC : RawNode3DData :=
  ⟨"c", "C", JsNum.fin 1, NodeSize.sm, false, none, none, none, none⟩

/-- Witness for claim C4: in the list [A, B, C] with A and C on layer 1,
C is the second of two layer-1 nodes and lands at radius 15, half a turn
around the circle. -/
theorem c4_layer_partition_and_placement_witness :
    Placement.mk wNodeC (jsRadius (JsNum.fin 1)) ((1 : ℚ) / 2) ∈
      layerPlacements [wNodeA, wNodeB, wNodeC] := by
  have H := (c4_layer_partition_and_placement [wNodeA, wNodeB, wNodeC]).2.2
    (JsNum.fin 1) [wNodeA, wNodeC] (by decide)
  have hplace := H.2 1 (by decide)
  have hlen : (([wNodeA, wNodeC] : List RawNode3DData).length : ℚ) = 2 := by
    simp
  rw [hlen] at hplace
  have hcast : ((1 : ℕ) : ℚ) = 1 := by norm_num
  rw [hcast] at hplace
  exact hplace

/-! Ring guides: relating the Math.max fold over Map keys to the spec's
maximum over the node list. -/

/-- Right fold of max with base 0. -/
def maxList (xs : List ℕ) : ℕ := xs.foldr max 0

/-- A left max fold is the base joined with the list maximum. -/
theorem foldl_max_eq (xs : List ℕ) : ∀ L : ℕ, xs.foldl max L = max L (maxList xs) := by
  induction xs with
  | nil => intro L; simp [maxList]
  | cons x rest ih =>
      intro L
      simp only [List.foldl_cons, maxList, List.foldr_cons]
      rw [ih (max L x)]
      rw [Nat.max_assoc]
      rfl

/-- Members are bounded by the list maximum. -/
theorem le_maxList_of_mem {x : ℕ} {xs : List ℕ} (h : x ∈ xs) : x ≤ maxList xs := by
  induction xs with
  | nil => cases h
  | cons y rest ih =>
      rcases List.mem_cons.1 h with h | h
      · subst h; exact Nat.le_max_left _ _
      · exact le_trans (ih h) (Nat.le_max_right _ _)

/-- The list maximum is below any bound of all members. -/
theorem maxList_le {xs : List ℕ} {m : ℕ} (h : ∀ x ∈ xs, x ≤ m) : maxList xs ≤ m := by
  induction xs with
  | nil => exact Nat.zero_le m
  | cons y rest ih =>
      refine Nat.max_le.2 ⟨h y (List.mem_cons_self y rest), ?_⟩
      exact ih (fun x hx => h x (List.mem_cons_of_mem y hx))

/-- Lists with the same members share their maximum. -/
theorem maxList_congr {A B : List ℕ} (h : ∀ x, x ∈ A ↔ x ∈ B) :
    maxList A = maxList B :=
  le_antisymm (maxList_le fun x hx => le_maxList_of_mem ((h x).1 hx))
    (maxList_le fun x hx => le_maxList_of_mem ((h x).2 hx))

/-- Flooring a natural-valued JS number recovers the natural number. -/
theorem jsFloorNat_natCast (m : ℕ) : jsFloorNat (JsNum.fin (m : ℚ)) = m := by
  simp [jsFloorNat, Int.floor_natCast, Int.toNat_natCast]

/-- Folding Math.max over natural-valued keys is the natural max fold. -/
theorem foldl_jsMax_natCast (ks : List JsNum) :
    ∀ a : ℕ, (∀ k ∈ ks, ∃ m : ℕ, k = JsNum.fin (m : ℚ)) →
      ks.foldl jsMax (JsNum.fin (a : ℚ)) =
        JsNum.fin (((ks.map jsFloorNat).foldl max a : ℕ) : ℚ) := by
  induction ks with
  | nil => intro a _; rfl
  | cons k rest ih =>
      intro a h
      obtain ⟨m, hm⟩ := h k (List.mem_cons_self k rest)
      subst hm
      have hstep : jsMax (JsNum.fin (a : ℚ)) (JsNum.fin (m : ℚ)) =
          JsNum.fin ((max a m : ℕ) : ℚ) := by
        simp [jsMax, Nat.cast_max]
      simp only [List.foldl_cons, List.map_cons, hstep, jsFloorNat_natCast]
      exact ih (max a m) (fun x hx => h x (List.mem_cons_of_mem _ hx))

/-- The spec's maximum unrolls to a max fold over the non-center floors. -/
theorem specMaxLayer_eq_foldl (nodes : List RawNode3DData) :
    ∀ L : ℕ, specMaxLayer nodes L =
      ((layerNodes nodes).map (fun n => jsFloorNat n.layerOrder)).foldl max L := by
  induction nodes with
  | nil => intro L; rfl
  | cons n rest ih =>
      intro L
      by_cases hc : n.isCenter
      · simp only [specMaxLayer, List.foldl_cons, if_pos hc, layerNodes,
          List.filter_cons, hc]
        exact ih L
      · have hfilter : layerNodes (n :: rest) = n :: layerNodes rest := by
          simp [layerNodes, List.filter_cons, hc]
        have hL : specMaxLayer (n :: rest) L =
            specMaxLayer rest (max L (jsFloorNat n.layerOrder)) := by
          simp only [specMaxLayer, List.foldl_cons, if_neg hc]
        rw [hL, hfilter, List.map_cons, List.foldl_cons]
        exact ih (max L (jsFloorNat n.layerOrder))

/-- Every layer key of the grouping stems from a non-center node. -/
theorem layerKeys_from_nodes (nodes : List RawNode3DData) :
    ∀ k ∈ layerKeys nodes, ∃ n ∈ layerNodes nodes, n.layerOrder = k := by
  intro k hk
  obtain ⟨p, hp, hpk⟩ := List.mem_map.1 hk
  obtain ⟨-, -, -, horig⟩ := nodesByLayer_spec nodes
  obtain ⟨n, hn, hnk⟩ := horig p.1 p.2 hp
  exact ⟨n, hn, hpk ▸ hnk⟩

/-- Claim C3: one ring guide per integer layer index from 1 up to the
maximum of the configured layer count and the highest layerOrder observed
among non-center nodes, the j-th ring (0-based) at radius 15 + j * 7, so
the radii are strictly increasing. -/
theorem c3_ring_guides (nodes : List RawNode3DData) (numberOfLayers : ℕ)
    (hInt : ∀ n ∈ nodes, n.isCenter = false → ∃ m : ℕ, n.layerOrder = JsNum.fin (m : ℚ)) :
    (ringRadii nodes numberOfLayers).length = specMaxLayer nodes numberOfLayers ∧
    (∀ j, j < (ringRadii nodes numberOfLayers).length →
      (ringRadii nodes numberOfLayers).getD j 0 = 15 + (j : ℚ) * 7) ∧
    (ringRadii nodes numberOfLayers).Pairwise (· < ·) := by
  have hkeys : ∀ k ∈ layerKeys nodes, ∃ m : ℕ, k = JsNum.fin (m : ℚ) := by
    intro k hk
    obtain ⟨n, hn, hnk⟩ := layerKeys_from_nodes nodes k hk
    have hmem := List.mem_filter.1 hn
    have hcf : n.isCenter = false := by
      have := hmem.2
      simpa [Bool.not_eq_true'] using this
    obtain ⟨m, hm⟩ := hInt n hmem.1 hcf
    exact ⟨m, hnk ▸ hm⟩
  have hmaxfold : maxLayerJs nodes numberOfLayers =
      JsNum.fin ((((layerKeys nodes).map jsFloorNat).foldl max numberOfLayers : ℕ) : ℚ) :=
    foldl_jsMax_natCast (layerKeys nodes) numberOfLayers hkeys
  have hiter : iterCount (maxLayerJs nodes numberOfLayers) =
      ((layerKeys nodes).map jsFloorNat).foldl max numberOfLayers := by
    rw [hmaxfold]
    simp [iterCount, Int.floor_natCast, Int.toNat_natCast]
  have hmemiff : ∀ x, x ∈ (layerKeys nodes).map jsFloorNat ↔
      x ∈ (layerNodes nodes).map (fun n => jsFloorNat n.layerOrder) := by
    intro x
    constructor
    · intro hx
      obtain ⟨k, hk, hkx⟩ := List.mem_map.1 hx
      obtain ⟨n, hn, hnk⟩ := layerKeys_from_nodes nodes k hk
      exact List.mem_map.2 ⟨n, hn, by rw [hnk, hkx]⟩
    · intro hx
      obtain ⟨n, hn, hnx⟩ := List.mem_map.1 hx
      obtain ⟨-, -, hcomp, -⟩ := nodesByLayer_spec nodes
      exact List.mem_map.2 ⟨n.layerOrder, hcomp n hn, hnx⟩
  have hM : ((layerKeys nodes).map jsFloorNat).foldl max numberOfLayers =
      specMaxLayer nodes numberOfLayers := by
    rw [foldl_max_eq, specMaxLayer_eq_foldl, foldl_max_eq]
    rw [maxList_congr hmemiff]
  have hlen : (ringRadii nodes numberOfLayers).length =
      specMaxLayer nodes numberOfLayers := by
    unfold ringRadii
    rw [List.length_map, List.length_range, hiter, hM]
  refine ⟨hlen, ?_, ?_⟩
  · intro j hj
    unfold ringRadii at hj ⊢
    rw [List.length_map, List.length_range] at hj
    rw [getD_map_range _ _ hj]
    simp [ringRadius]
  · unfold ringRadii
    rw [List.pairwise_map]
    have hp := List.pairwise_lt_range (iterCount (maxLayerJs nodes numberOfLayers))
    refine hp.imp ?_
    intro a b hab
    have hq : (a : ℚ) < (b : ℚ) := by exact_mod_cast hab
    simp only [ringRadius]
    linarith

/-- A non-center node on layer 5. -/
def wNode5 : RawNode3DData :=
  ⟨"e", "E", JsNum.fin 5, NodeSize.md, false, none, none, none, none⟩

/-- Witness for claim C3: with three configured layers and one node on
layer 5 exactly five rings appear, and with no nodes exactly three. -/
theorem c3_ring_guides_witness :
    ((ringRadii [wNode5] 3).length = specMaxLayer [wNode5] 3 ∧
      specMaxLayer [wNode5] 3 = 5) ∧
    ((ringRadii [] 3).length = specMaxLayer [] 3 ∧ specMaxLayer [] 3 = 3) := by
  constructor
  · refine ⟨(c3_ring_guides [wNode5] 3 ?_).1, by decide⟩
    intro n hn _
    have hn5 : n = wNode5 := by simpa using hn
    subst hn5
    exact ⟨5, by norm_num [wNode5]⟩
  · refine ⟨(c3_ring_guides [] 3 ?_).1, by decide⟩
    intro n hn
    cases hn

/-- Unfolding toFixed1 through a computed floor value. -/
theorem toFixed1_eq (q : ℚ) (n : ℤ) (h : ⌊q * 10 + 1 / 2⌋ = n) :
    toFixed1 q = (if n < 0 then "-" else "") ++ toString (n.natAbs / 10) ++ "." ++
      toString (n.natAbs % 10) := by
  simp only [toFixed1]
  rw [h]

/-- 999 stays below both thresholds and renders as its decimal digits. -/
theorem formatNumber_999 : formatNumber (JsNum.fin 999) = "999" := by
  have h1 : ¬((1000000 : ℚ) ≤ 999) := by norm_num
  have h2 : ¬((1000 : ℚ) ≤ 999) := by norm_num
  simp only [formatNumber]
  rw [if_neg h1, if_neg h2]
  decide

/-- 1,000 crosses the K threshold and renders as 1.0K. -/
theorem formatNumber_1000 : formatNumber (JsNum.fin 1000) = "1.0K" := by
  have h1 : ¬((1000000 : ℚ) ≤ 1000) := by norm_num
  have h2 : (1000 : ℚ) ≤ 1000 := le_refl _
  have hf : ⌊(1000 : ℚ) / 1000 * 10 + 1 / 2⌋ = (10 : ℤ) := by
    rw [Int.floor_eq_iff]; norm_num
  simp only [formatNumber]
  rw [if_neg h1, if_pos h2, toFixed1_eq _ 10 hf]
  decide

/-- 1,500,000 crosses the M threshold and renders as 1.5M. -/
theorem formatNumber_1500000 : formatNumber (JsNum.fin 1500000) = "1.5M" := by
  have h1 : (1000000 : ℚ) ≤ 1500000 := by norm_num
  have hf : ⌊(1500000 : ℚ) / 1000000 * 10 + 1 / 2⌋ = (15 : ℤ) := by
    rw [Int.floor_eq_iff]; norm_num
  simp only [formatNumber]
  rw [if_pos h1, toFixed1_eq _ 15 hf]
  decide

/-- A center record that carries a cifrb metric. -/
def centerWithMetric : RawNode3DData :=
  ⟨"t", "T", JsNum.fin 0, NodeSize.lg, true, some (JsNum.fin 5), none, none, none⟩

/-- Counterexample to claim C6: this center record has a present cifrb
metric, yet its generated label block lists no metric lines at all. -/
theorem c6_center_metrics_counterexample :
    centerWithMetric.cifrb.isSome = true ∧
    (createNodeLabelHTML centerWithMetric).metrics = [] := by decide

/-- Claim C6 amended: for every non-center record the label block lists
exactly the metric fields present on the record, in the order cifrb, ccu,
transactions, transactionsIn10Min, each formatted with the K and M
abbreviations at the 1,000 and 1,000,000 thresholds rounded to one decimal
place; for center records the metric lines are omitted entirely and only
the title is shown. -/
theorem c6_label_metrics_amended (nd : RawNode3DData) :
    (createNodeLabelHTML nd).title = nd.label ∧
    (createNodeLabelHTML nd).metrics =
      (if nd.isCenter then [] else presentMetricLines nd) ∧
    formatNumber (JsNum.fin 999) = "999" ∧
    formatNumber (JsNum.fin 1000) = "1.0K" ∧
    formatNumber (JsNum.fin 1500000) = "1.5M" := by
  refine ⟨rfl, ?_, formatNumber_999, formatNumber_1000, formatNumber_1500000⟩
  by_cases hc : nd.isCenter <;>
    cases h1 : nd.cifrb <;> cases h2 : nd.ccu <;>
    cases h3 : nd.transactions <;> cases h4 : nd.transactionsIn10Min <;>
    simp [createNodeLabelHTML, presentMetricLines, metricLine, metricLineAll,
      hc, h1, h2, h3, h4]

/-- No inner core stems from any tail position of the center loop. -/
theorem no_core_in_tail (rest : List RawNode3DData) :
    ∀ k : ℕ, (((List.enumFrom (k + 1) rest).map (fun e =>
      (if e.1 = 0 then [CenterObj.core e.2] else []) ++
        [CenterObj.mesh e.2])).flatten.filter isCoreObj) = [] := by
  induction rest with
  | nil => intro k; rfl
  | cons x rest ih =>
      intro k
      simp only [List.enumFrom, List.map_cons, List.flatten_cons,
        List.filter_append]
      rw [if_neg (by simp)]
      have h0 : List.filter isCoreObj ([] : List CenterObj) = [] := rfl
      have hx : List.filter isCoreObj [CenterObj.mesh x] = [] := rfl
      rw [h0, hx, List.nil_append, List.nil_append]
      exact ih (k + 1)

/-- Claim C7: center nodes all receive the fixed radius 12, strictly above
every satellite radius; the label styling of center nodes is a distinct
color and opacity treatment (the mesh color itself is the same hex on both
branches of getNodeColor, so the distinction lives in the label styling);
and the inner core visual is created for exactly the first center node of
the list and no other. -/
theorem c7_center_treatment :
    (∀ s : NodeSize, getNodeSize s true = 12) ∧
    (∀ s s' : NodeSize, getNodeSize s false < getNodeSize s' true) ∧
    nodeLabelStyle true ≠ nodeLabelStyle false ∧
    nodeMeshStyle true = nodeMeshStyle false ∧
    (∀ centers : List RawNode3DData,
      (renderCenterNodes centers).filter isCoreObj =
        if centers.isEmpty then []
        else [CenterObj.core (centers.getD 0 defaultNode)]) := by
  refine ⟨?_, ?_, by decide, rfl, ?_⟩
  · intro s; rfl
  · intro s s'; cases s <;> cases s' <;> decide
  · intro centers
    cases centers with
    | nil => rfl
    | cons c rest =>
        simp only [renderCenterNodes, List.enum, List.enumFrom, List.map_cons,
          List.flatten_cons, List.filter_append]
        rw [if_pos trivial]
        have h1 : List.filter isCoreObj [CenterObj.core c] = [CenterObj.core c] := rfl
        have h2 : List.filter isCoreObj [CenterObj.mesh c] = [] := rfl
        rw [h1, h2, no_core_in_tail rest 0]
        simp

/-- A first center record. -/
def wCenterA : RawNode3DData :=
  ⟨"p", "P", JsNum.fin 0, NodeSize.lg, true, none, none, none, none⟩

/-- A second center record. -/
def wCenterB : RawNode3DData :=
  ⟨"q", "Q", JsNum.fin 0, NodeSize.sm, true, none, none, none, none⟩

/-- Witness for claim C7: with two center records exactly one inner core
is created, belonging to the first of them, and the center label styling
differs from the satellite one. -/
theorem c7_center_treatment_witness :
    (renderCenterNodes [wCenterA, wCenterB]).filter isCoreObj =
      [CenterObj.core wCenterA] ∧
    nodeLabelStyle true ≠ nodeLabelStyle false := by
  have H := c7_center_treatment
  exact ⟨(H.2.2.2.2 [wCenterA, wCenterB]).trans (by decide), H.2.2.1⟩

/-- Evidence for claim C5: starting from a mounted scene, one data update
attaches visuals (ring guides and one node group with its three children);
a second update releases every identifier allocated so far exactly once;
but unmounting instead of updating releases none of them — the update
effect installs no cleanup and the unmount path touches only the renderer
and the canvases — so the visuals alive at unmount are never released,
contradicting the claimed release-exactly-once discipline. -/
theorem c5_unmount_leak_evidence :
    (updateScene [wNodeA] 3 mountScene).nodeChildren ≠ [] ∧
    (unmountScene (updateScene [wNodeA] 3 mountScene)).disposedLog = [] ∧
    ((List.range (updateScene [wNodeA] 3 mountScene).nextId).all
      (fun i =>
        (updateScene [wNodeA] 3 (updateScene [wNodeA] 3 mountScene)).disposedLog.count i
          == 1)) = true := by
  refine ⟨by decide, by decide, by decide⟩
